import Mathlib

/-!
Shallow embedding of the v1-caption service core (src/server/api/main.rs).

The embedding models Rust strings as Lean `String` values (lists of Unicode
scalar values), Rust `u64` as `Nat` with explicit `2 ^ 64` bounds, and Rust
`f64` values by their exact rational value together with the special values
NaN and the two infinities.  IEEE-754 double arithmetic that the code performs
(`u64 as f64`, `f64` division, `{:.1}` formatting) is modelled exactly by
integer round-to-nearest-ties-to-even at 53 significant bits; `f64 as u64`
is the saturating cast.  Fallible Rust functions returning `Result` are
modelled with `Except`.
-/

deriving instance DecidableEq for Except

/-! ## Rust string primitives used by the source -/

/-- Model of Rust `char::is_whitespace`: the Unicode White_Space code points. -/
def rust_is_whitespace (c : Char) : Bool :=
  [0x9, 0xA, 0xB, 0xC, 0xD, 0x20, 0x85, 0xA0, 0x1680,
   0x2000, 0x2001, 0x2002, 0x2003, 0x2004, 0x2005, 0x2006, 0x2007,
   0x2008, 0x2009, 0x200A, 0x2028, 0x2029, 0x202F, 0x205F, 0x3000].contains c.toNat

/-- Model of Rust `str::trim`: drop leading and trailing whitespace. -/
def rust_trim (s : String) : String :=
  String.mk (((s.data.dropWhile rust_is_whitespace).reverse.dropWhile
    rust_is_whitespace).reverse)

/-- Scanner for substring containment over character lists. -/
def containsSubAux (p : Char) (ps : List Char) : List Char → Bool
  | [] => false
  | c :: cs => List.isPrefixOf (p :: ps) (c :: cs) || containsSubAux p ps cs

/-- Model of Rust `str::contains` with a string pattern. -/
def rust_contains (s pat : String) : Bool :=
  match pat.data with
  | [] => true
  | p :: ps => containsSubAux p ps s.data

/-- Fuel-driven splitter: splits on every non-overlapping occurrence of the
pattern `p :: ps`, scanning left to right, accumulating the current segment
in reverse in `acc`. -/
def splitOnAuxF (p : Char) (ps : List Char) : Nat → List Char → List Char → List (List Char)
  | 0, acc, _ => [acc.reverse]
  | fuel + 1, acc, l =>
    if List.isPrefixOf (p :: ps) l then
      acc.reverse :: splitOnAuxF p ps fuel [] (List.drop (ps.length + 1) l)
    else
      match l with
      | [] => [acc.reverse]
      | c :: cs => splitOnAuxF p ps fuel (c :: acc) cs

/-- Model of Rust `str::split` with a non-empty string pattern: the list of
segments between non-overlapping occurrences of the pattern.  (The source
only ever splits on the non-empty patterns `"v="`, `'&'`, `"youtu.be/"`
and `'?'`.) -/
def rust_split (s pat : String) : List String :=
  match pat.data with
  | [] => [s]
  | p :: ps => (splitOnAuxF p ps (s.data.length + 1) [] s.data).map String.mk

/-! ## Identifier Validator (`validate_video_id`) -/

/-- Model of Rust `char::is_ascii_alphanumeric`:
`matches!(c, '0'..='9' | 'A'..='Z' | 'a'..='z')`. -/
def is_ascii_alphanumeric (c : Char) : Bool :=
  (decide ('0' ≤ c) && decide (c ≤ '9')) ||
  (decide ('A' ≤ c) && decide (c ≤ 'Z')) ||
  (decide ('a' ≤ c) && decide (c ≤ 'z'))

/-- The filter predicate of `validate_video_id`:
`!c.is_ascii_alphanumeric() && *c != '-' && *c != '_'`. -/
def is_invalid_char (c : Char) : Bool :=
  !(is_ascii_alphanumeric c) && c != '-' && c != '_'

/-- Model of Rust `str::len`: the length of the string in UTF-8 bytes. -/
def rust_len (s : String) : Nat :=
  (s.data.map Char.utf8Size).sum

/-- The two failure modes of `validate_video_id`, by the `ValidationError`
they construct: the length error (code `"video_id must be exactly 11
characters"`) and the charset error (code `"invalid_characters"`, carrying
the offending characters in scan order). -/
inductive VError where
  | lengthError : VError
  | charsetError : List Char → VError
deriving DecidableEq, Repr

/-- Embedding of `validate_video_id` (main.rs lines 23-43).  Note that
`video_id.len()` in Rust is the UTF-8 byte length. -/
def validate_video_id (video_id : String) : Except VError Unit :=
  if rust_len video_id ≠ 11 then
    Except.error VError.lengthError
  else
    let invalid_chars : List Char := video_id.data.filter is_invalid_char
    if !invalid_chars.isEmpty then
      Except.error (VError.charsetError invalid_chars)
    else
      Except.ok ()

/-! ## IEEE-754 double model (exact, over integers) -/

/-- Round-to-nearest, ties to even, of the quotient `a / b` (for `b > 0`). -/
def rneDiv (a b : Nat) : Nat :=
  let q := a / b
  let r := a % b
  if 2 * r < b then q
  else if b < 2 * r then q + 1
  else if q % 2 = 0 then q else q + 1

/-- Fuel-driven binary logarithm (`natLog2F fuel n = ⌊log2 n⌋` for `1 ≤ n`
and sufficient fuel). -/
def natLog2F : Nat → Nat → Nat
  | 0, _ => 0
  | fuel + 1, n => if n ≤ 1 then 0 else natLog2F fuel (n / 2) + 1

/-- Binary logarithm with enough fuel for all values below `2 ^ 128`. -/
def natLog2 (n : Nat) : Nat := natLog2F 128 n

/-- Model of the Rust cast `n as f64` for `n : u64`: round `n` to the nearest
double (53 significant bits, ties to even).  The result of the cast is always
a mathematical integer, so it is returned as a `Nat`. -/
def u64_as_f64 (n : Nat) : Nat :=
  if n < 2 ^ 53 then n
  else
    let e := natLog2 n - 52
    rneDiv n (2 ^ e) * 2 ^ e

/-- Model of `format!("{:.1}", (x as f64))` applied to the correctly rounded
IEEE double quotient of the exact double value `x` by the small constant `d`
(`d` is `1e3`, `1e6` or `1e9` in the source, all exactly representable).
Intended for `1 ≤ d ≤ x`, so the quotient is at least `1`.

The quotient `x / d` is first rounded to a double `v = s * 2 ^ (k - 52)`
(53-bit significand `s`, `k = ⌊log2 (x / d)⌋`, ties to even), and `v` is then
rendered with exactly one decimal digit, i.e. as `rne (10 * v)` split into
integer part and tenths digit; Rust float formatting rounds to nearest with
ties to even, and `v` is never exactly midway except at quarters, where ties
to even applies. -/
def format_f64_one_decimal (x d : Nat) : String :=
  let k := natLog2 (x / d)
  let s := if k ≤ 52 then rneDiv (x * 2 ^ (52 - k)) d else rneDiv x (d * 2 ^ (k - 52))
  let t := if k ≤ 52 then rneDiv (10 * s) (2 ^ (52 - k)) else 10 * s * 2 ^ (k - 52)
  Nat.repr (t / 10) ++ "." ++ Nat.repr (t % 10)

/-! ## View-count formatter (`format_views`) -/

/-- Model of Rust `views.parse::<u64>()`: an optional leading `+`, then one
or more ASCII digits, value below `2 ^ 64`; anything else fails. -/
def parse_u64 (s : String) : Option Nat :=
  let digits := match s.data with
    | '+' :: rest => rest
    | rest => rest
  if digits.isEmpty then none
  else if digits.all Char.isDigit then
    let n := digits.foldl (fun acc c => acc * 10 + (c.toNat - '0'.toNat)) 0
    if n < 2 ^ 64 then some n else none
  else none

/-- Strips occurrences of the suffix `".0"` repeatedly; the input is the
character list in reverse order. -/
def stripDot0Rev : List Char → List Char
  | '0' :: '.' :: rest => stripDot0Rev rest
  | l => l

/-- Model of Rust `str::trim_end_matches(".0")`: repeatedly remove a trailing
`".0"`. -/
def trim_end_dot0 (s : String) : String :=
  String.mk (stripDot0Rev s.data.reverse).reverse

/-- Embedding of `format_views` (main.rs lines 45-62).  The `match num`
with guards is modelled by the nested conditional choosing the divisor and
suffix; `n.to_string()` for `u64` is decimal `Nat.repr`. -/
def format_views (views : String) : String :=
  match parse_u64 views with
  | none => views
  | some num =>
    match (if 1000000000 ≤ num then some (1000000000, "B")
           else if 1000000 ≤ num then some (1000000, "M")
           else if 1000 ≤ num then some (1000, "K")
           else none) with
    | none => Nat.repr num
    | some (d, suffix) =>
      let formatted := format_f64_one_decimal (u64_as_f64 num) d
      let clean := trim_end_dot0 formatted
      clean ++ suffix

/-! ## Timestamp formatter (`seconds_to_timestamp`) -/

/-- A Rust `f64` value: NaN, the infinities, or a finite value given by its
exact rational value. -/
inductive FVal where
  | nan : FVal
  | inf : FVal
  | negInf : FVal
  | fin : ℚ → FVal
deriving DecidableEq

/-- Model of the Rust cast `seconds as u64`: saturating, truncating toward
zero, NaN to `0`.  For a non-negative finite value truncation toward zero is
the floor. -/
def f64_to_u64 : FVal → Nat
  | FVal.nan => 0
  | FVal.inf => 2 ^ 64 - 1
  | FVal.negInf => 0
  | FVal.fin q => min (2 ^ 64 - 1) ⌊q⌋.toNat

/-- Model of `format!("{:02}", n)`: decimal, left-padded with zeros to width
two. -/
def pad2 (n : Nat) : String :=
  if n < 10 then "0" ++ Nat.repr n else Nat.repr n

/-- Embedding of `seconds_to_timestamp` (main.rs lines 64-75). -/
def seconds_to_timestamp (seconds : FVal) : String :=
  let total := f64_to_u64 seconds
  let hours := total / 3600
  let mins := total % 3600 / 60
  let secs := total % 60
  if hours > 0 then
    pad2 hours ++ ":" ++ pad2 mins ++ ":" ++ pad2 secs
  else
    pad2 mins ++ ":" ++ pad2 secs

/-! ## URL extractor (`extract_id_from_url`) -/

/-- The two failure modes of `extract_id_from_url`, by their message:
`urlParseError` is `"invalid YouTube URL: could not extract valid video ID"`
and `unsupportedUrl` is `"invalid YouTube URL: must be youtube.com/watch or
youtu.be URL"`. -/
inductive ExtractError where
  | urlParseError : ExtractError
  | unsupportedUrl : ExtractError
deriving DecidableEq, Repr

/-- The `youtube.com/watch` branch of `extract_id_from_url` (main.rs lines
82-91): `url.split("v=").nth(1).and_then(|s| s.split('&').next())`, then the
candidate must pass `validate_video_id`. -/
def watch_branch (url : String) : Except ExtractError String :=
  match ((rust_split url "v=").get? 1).bind (fun s => (rust_split s "&").head?) with
  | some id =>
    if (validate_video_id id).isOk then Except.ok id
    else Except.error ExtractError.urlParseError
  | none => Except.error ExtractError.urlParseError

/-- The `youtu.be/` branch of `extract_id_from_url` (main.rs lines 94-107). -/
def short_branch (url : String) : Except ExtractError String :=
  match ((rust_split url "youtu.be/").get? 1).bind (fun s => (rust_split s "?").head?) with
  | some id =>
    if (validate_video_id id).isOk then Except.ok id
    else Except.error ExtractError.urlParseError
  | none => Except.error ExtractError.urlParseError

/-- Embedding of `extract_id_from_url` (main.rs lines 78-112). -/
def extract_id_from_url (url : String) : Except ExtractError String :=
  let url := rust_trim url
  if rust_contains url "youtube.com/watch" then watch_branch url
  else if rust_contains url "youtu.be/" then short_branch url
  else Except.error ExtractError.unsupportedUrl

/-! ## Caption cleaning -/

/-- Leftmost, non-overlapping removal of the three-character sequence
`">> "`: character-list core of `text.replace(">> ", "")` (main.rs line
226). -/
def cleanCaptionList : List Char → List Char
  | [] => []
  | '>' :: '>' :: ' ' :: rest => cleanCaptionList rest
  | c :: cs => c :: cleanCaptionList cs

/-- Embedding of the caption cleaning step `snippet.text.replace(">> ", "")`
of the orchestrator. -/
def clean_caption_text (text : String) : String :=
  String.mk (cleanCaptionList text.data)

/-! ## Request orchestrator (`yt`) -/

/-- Model of the JSON request body: two optional fields. -/
structure YTRequest where
  video_id : Option String
  video_url : Option String

/-- A transcript snippet as returned by the external provider: `start` and
`duration` are `f64`, `text` is the raw caption text. -/
structure FetchedSnippet where
  start : FVal
  duration : FVal
  text : String

/-- Video metadata as returned by the external provider. -/
structure VideoDetails where
  title : String
  author : String
  view_count : String

/-- A response snippet: formatted start, pass-through duration, cleaned
text. -/
structure TranscriptSnippet where
  start : String
  duration : FVal
  text : String
deriving DecidableEq

/-- The response body assembled by `yt`. -/
structure YTResponse where
  id : String
  title : String
  author : String
  views : String
  transcript : List TranscriptSnippet

/-- The external transcript provider (the `yt_transcript_rs` client), as an
abstract collaborator: construction of the client, `fetch_transcript` (for
the fixed language list `["en"]`), and `fetch_video_details`.  Errors are
their rendered messages. -/
structure Provider where
  init : Except String Unit
  fetch_transcript : String → Except String (List FetchedSnippet)
  fetch_video_details : String → Except String VideoDetails

/-- Rendering of a `char` in Rust `Debug` format; escaping of quotes,
backslashes and control characters is not modelled (no claim depends on
it). -/
def rust_debug_char (c : Char) : String :=
  "'" ++ String.mk [c] ++ "'"

/-- Rendering of a `Vec<char>` in Rust `Debug` format, as used by the
charset error message of `validate_video_id`. -/
def rust_debug_chars (l : List Char) : String :=
  "[" ++ String.intercalate ", " (l.map rust_debug_char) ++ "]"

/-- The message the `yt` handler extracts from a `ValidationError` produced
by `validate_video_id`: `e.message` if set (the charset error sets it),
otherwise `e.code`. -/
def verror_message : VError → String
  | VError.lengthError => "video_id must be exactly 11 characters"
  | VError.charsetError l => "video_id contains invalid characters: " ++ rust_debug_chars l

/-- The message the `yt` handler extracts from a `ValidationError` produced
by `extract_id_from_url` (neither sets `message`, so `e.code` is used). -/
def extract_error_message : ExtractError → String
  | ExtractError.urlParseError => "invalid YouTube URL: could not extract valid video ID"
  | ExtractError.unsupportedUrl => "invalid YouTube URL: must be youtube.com/watch or youtu.be URL"

/-- The provider-facing tail of the `yt` handler (main.rs lines 180-238),
reached only after an identifier has been resolved: client construction,
transcript fetch, metadata fetch, assembly.  HTTP statuses are the numeric
codes (`400` BAD_REQUEST, `500` INTERNAL_SERVER_ERROR). -/
def yt_fetch (proxy_url : Option String) (p : Provider) (video_id : String) :
    Except (Nat × String) YTResponse :=
  let has_proxy := proxy_url.isSome
  match p.init with
  | Except.error e => Except.error (500, "API init error: " ++ e)
  | Except.ok _ =>
    match p.fetch_transcript video_id with
    | Except.error e =>
      Except.error (500, "Transcript error (proxy=" ++ toString has_proxy ++ "): " ++ e)
    | Except.ok parts =>
      match p.fetch_video_details video_id with
      | Except.error e => Except.error (500, e)
      | Except.ok details =>
        Except.ok
          { id := video_id
            title := details.title
            author := details.author
            views := format_views details.view_count
            transcript := parts.map (fun sn =>
              { start := seconds_to_timestamp sn.start
                duration := sn.duration
                text := clean_caption_text sn.text }) }

/-- Embedding of the `yt` handler (main.rs lines 140-239).  The
`PROXY_URL` environment variable is passed in as `proxy_url`; the external
client is passed in as `p`; the `println!` calls are pure logging and are
not modelled. -/
def yt (proxy_url : Option String) (p : Provider) (payload : YTRequest) :
    Except (Nat × String) YTResponse :=
  match payload.video_id, payload.video_url with
  | some _, some _ =>
    Except.error (400, "Cannot provide both video_id and video_url. Use one or the other.")
  | none, none =>
    Except.error (400, "Must provide either video_id or video_url.")
  | some id, none =>
    match validate_video_id id with
    | Except.error e => Except.error (400, verror_message e)
    | Except.ok _ => yt_fetch proxy_url p id
  | none, some url =>
    match extract_id_from_url url with
    | Except.error e => Except.error (400, extract_error_message e)
    | Except.ok id => yt_fetch proxy_url p id

/-! ## Definitions modelled from the words of the specification, used to
state refinement claims -/

/-- Discriminator: does a validation result carry the charset error? -/
def is_charset_error : Except VError Unit → Bool
  | Except.error (VError.charsetError _) => true
  | _ => false

/-- An HTTP status in the client-error class. -/
def is_client_error (status : Nat) : Bool :=
  400 ≤ status && status < 500

/-- Fuel-driven generic leftmost non-overlapping removal of every occurrence
of the pattern `p :: ps` from a character list. -/
def removeOccAux (p : Char) (ps : List Char) : Nat → List Char → List Char
  | 0, l => l
  | fuel + 1, l =>
    if List.isPrefixOf (p :: ps) l then
      removeOccAux p ps fuel (List.drop (ps.length + 1) l)
    else
      match l with
      | [] => []
      | c :: cs => c :: removeOccAux p ps fuel cs

/-- Removal of every occurrence of a non-empty pattern from a string by
simple leftmost non-overlapping substring removal, as the specification
words it. -/
def removeOccurrences (pat s : String) : String :=
  match pat.data with
  | [] => s
  | p :: ps => String.mk (removeOccAux p ps s.data.length s.data)

/-- Modelled from the spec: `formatTimestamp` on a non-negative finite value
truncates to whole seconds (no rounding), decomposes into hours, minutes and
seconds, and renders zero-padded `"HH:MM:SS"` when hours are positive and
zero-padded `"MM:SS"` otherwise. -/
def formatTimestampSpec (q : ℚ) : String :=
  let total := ⌊q⌋.toNat
  let hours := total / 3600
  let mins := total % 3600 / 60
  let secs := total % 60
  if hours > 0 then
    pad2 hours ++ ":" ++ pad2 mins ++ ":" ++ pad2 secs
  else
    pad2 mins ++ ":" ++ pad2 secs

/-! ## Helper lemmas -/

theorem utf8Size_one_of_le_z (c : Char) (h : c ≤ 'z') : c.utf8Size = 1 := by
  have hz : ('z' : Char).val ≤ (127 : UInt32) := by decide
  have hv : c.val ≤ (127 : UInt32) := UInt32.le_trans (Char.le_def.mp h) hz
  simp [Char.utf8Size, hv]

theorem utf8Size_one_of_valid (c : Char) (h : is_invalid_char c = false) :
    c.utf8Size = 1 := by
  by_cases h1 : c = '-'
  · subst h1; decide
  by_cases h2 : c = '_'
  · subst h2; decide
  have hA : is_ascii_alphanumeric c = true := by
    by_contra hA
    simp only [Bool.not_eq_true] at hA
    simp [is_invalid_char, hA, h1, h2] at h
  simp only [is_ascii_alphanumeric, Bool.or_eq_true, Bool.and_eq_true,
    decide_eq_true_eq] at hA
  rcases hA with (⟨_, hb⟩ | ⟨_, hb⟩) | ⟨_, hb⟩ <;>
    exact utf8Size_one_of_le_z c (le_trans hb (by decide))

theorem sum_map_utf8Size_eq_length (l : List Char)
    (h : ∀ c ∈ l, Char.utf8Size c = 1) : (l.map Char.utf8Size).sum = l.length := by
  induction l with
  | nil => rfl
  | cons c cs ih =>
    simp only [List.map_cons, List.sum_cons, List.length_cons,
      h c (List.mem_cons_self c cs), ih (fun d hd => h d (List.mem_cons_of_mem c hd))]
    omega

theorem clean_eq_removeOccAux (l : List Char) :
    ∀ fuel, l.length ≤ fuel → cleanCaptionList l = removeOccAux '>' ['>', ' '] fuel l := by
  induction l using cleanCaptionList.induct with
  | case1 =>
    intro fuel _
    cases fuel <;> rfl
  | case2 rest ih =>
    intro fuel h
    cases fuel with
    | zero => exact absurd h (by simp)
    | succ f =>
      have hp : List.isPrefixOf ['>', '>', ' '] ('>' :: '>' :: ' ' :: rest) = true := by
        simp [List.isPrefixOf]
      have hr : removeOccAux '>' ['>', ' '] (f + 1) ('>' :: '>' :: ' ' :: rest) =
          removeOccAux '>' ['>', ' '] f rest := by
        simp only [removeOccAux, hp]
        simp
      have hl : cleanCaptionList ('>' :: '>' :: ' ' :: rest) = cleanCaptionList rest := rfl
      rw [hl, hr]
      exact ih f (by simp at h; omega)
  | case3 c cs hne ih =>
    intro fuel h
    cases fuel with
    | zero => exact absurd h (by simp)
    | succ f =>
      have hp : List.isPrefixOf ['>', '>', ' '] (c :: cs) = false := by
        cases hP : List.isPrefixOf ['>', '>', ' '] (c :: cs)
        · rfl
        · exfalso
          rcases List.isPrefixOf_iff_prefix.mp hP with ⟨t, ht⟩
          simp only [List.cons_append, List.nil_append] at ht
          cases ht
          exact hne t rfl rfl
      have hc : cleanCaptionList (c :: cs) = c :: cleanCaptionList cs := by
        rw [cleanCaptionList.eq_def]
        split
        · simp_all
        · rename_i rest heq
          exfalso
          injection heq with e1 e2
          exact hne rest e1 e2
        · rename_i c2 cs2 heq
          injection heq with e1 e2
          rw [e1, e2]
      have hr : removeOccAux '>' ['>', ' '] (f + 1) (c :: cs) =
          c :: removeOccAux '>' ['>', ' '] f cs := by
        simp only [removeOccAux, hp]
        simp
      rw [hc, hr]
      exact congrArg (List.cons c) (ih f (by simp at h; omega))

/-! ## The claims -/

/-- C1: if both the identifier and the url field are present the handler fails
with the conflicting-input error, and if neither is present it fails with the
missing-input error; both surface with the client-error status 400, and the
result is the same for every provider and proxy configuration, so no provider
interaction occurs. -/
theorem c1_conflicting_and_missing_input (proxy : Option String) (p : Provider)
    (i u : String) :
    yt proxy p { video_id := some i, video_url := some u } =
      Except.error (400, "Cannot provide both video_id and video_url. Use one or the other.") ∧
    yt proxy p { video_id := none, video_url := none } =
      Except.error (400, "Must provide either video_id or video_url.") ∧
    is_client_error 400 = true :=
  ⟨rfl, rfl, rfl⟩

/-- C2 counterexample: removing every occurrence of the two-character
sequence made of two closing angle brackets would turn the input below into
"hello", but the code leaves it unchanged: the code removes the marker only
when it is followed by a space. -/
theorem c2_counterexample :
    removeOccurrences ">>" ">>hello" = "hello" ∧
    clean_caption_text ">>hello" ≠ "hello" :=
  ⟨by decide, by decide⟩

/-- C2 amended: for every input string, the caption cleaning step returns
the input with every occurrence of the three-character sequence consisting
of the speaker-change marker followed by a space removed, by simple leftmost
non-overlapping substring removal; in particular the example input that
starts with the marker and a space maps to "hello". -/
theorem c2_clean_caption (s : String) :
    clean_caption_text s = removeOccurrences ">> " s ∧
    clean_caption_text ">> hello" = "hello" := by
  refine ⟨?_, by decide⟩
  unfold clean_caption_text removeOccurrences
  exact congrArg String.mk (clean_eq_removeOccAux s.data s.data.length le_rfl)

/-- C3 counterexample: a 10-character string of UTF-8 byte length 11 is not
rejected with the length error, refuting the claim read with length counted
in characters. -/
theorem c3_counterexample :
    "abcdefghié".data.length ≠ 11 ∧
    validate_video_id "abcdefghié" ≠ Except.error VError.lengthError :=
  ⟨by decide, by decide⟩

/-- C3 amended: for every input string whose UTF-8 byte length (Rust
`str::len`) is not 11, validate fails with the length error. -/
theorem c3_length_error (s : String) (h : rust_len s ≠ 11) :
    validate_video_id s = Except.error VError.lengthError := by
  simp [validate_video_id, h]

/-- C3 witness. -/
theorem c3_length_error_witness :
    rust_len "short" ≠ 11 ∧
    validate_video_id "short" = Except.error VError.lengthError :=
  ⟨by decide, c3_length_error "short" (by decide)⟩

/-- C4 counterexample: an 11-character string containing a character outside
the allowed set whose UTF-8 byte length is 12 fails with the length error,
not the charset error, refuting the claim read with length counted in
characters. -/
theorem c4_counterexample :
    "aaaaaaaaaaé".data.length = 11 ∧
    "aaaaaaaaaaé".data.any is_invalid_char = true ∧
    is_charset_error (validate_video_id "aaaaaaaaaaé") = false :=
  ⟨by decide, by decide, by decide⟩

/-- C4 amended: for every string of UTF-8 byte length 11 containing at least
one character outside [A-Za-z0-9_-], validate fails with the charset error,
and the error payload is exactly the offending characters in scan order,
without deduplication. -/
theorem c4_charset_error (s : String) (h1 : rust_len s = 11)
    (h2 : s.data.any is_invalid_char = true) :
    validate_video_id s =
      Except.error (VError.charsetError (s.data.filter is_invalid_char)) := by
  have hne : s.data.filter is_invalid_char ≠ [] := by
    rcases List.any_eq_true.mp h2 with ⟨c, hc, hinv⟩
    intro hnil
    have hmem := List.mem_filter.mpr ⟨hc, hinv⟩
    rw [hnil] at hmem
    exact absurd hmem (List.not_mem_nil c)
  simp [validate_video_id, h1, List.isEmpty_iff, hne]

/-- C4 witness: duplicates are kept, in scan order. -/
theorem c4_charset_error_witness :
    validate_video_id "ab!cd!efgh!" =
      Except.error (VError.charsetError ['!', '!', '!']) :=
  (c4_charset_error "ab!cd!efgh!" (by decide) (by decide)).trans (by decide)

/-- C5: every 11-character string whose characters all lie in [A-Za-z0-9_-]
passes validation. -/
theorem c5_valid_id_accepted (s : String) (h1 : s.data.length = 11)
    (h2 : ∀ c ∈ s.data, is_invalid_char c = false) :
    validate_video_id s = Except.ok () := by
  have hlen : rust_len s = 11 := by
    unfold rust_len
    rw [sum_map_utf8Size_eq_length s.data (fun c hc => utf8Size_one_of_valid c (h2 c hc))]
    exact h1
  have hfilter : s.data.filter is_invalid_char = [] := by
    rw [List.filter_eq_nil_iff]
    intro c hc
    simp [h2 c hc]
  simp [validate_video_id, hlen, hfilter]

/-- C5 witness. -/
theorem c5_valid_id_accepted_witness :
    "dQw4w9WgXcQ".data.length = 11 ∧
    validate_video_id "dQw4w9WgXcQ" = Except.ok () :=
  ⟨by decide, c5_valid_id_accepted "dQw4w9WgXcQ" (by decide) (by decide)⟩

/-- C6: whenever the trimmed input contains the watch-page marker substring,
the extractor commits to the watch branch: the result equals that branch
alone (so the short-link branch is never consulted, even if its marker is
also present), every failure of that branch is the URL-parse error, and
every success returns an identifier accepted by the validator. -/
theorem c6_watch_branch_fail_fast (url : String)
    (h : rust_contains (rust_trim url) "youtube.com/watch" = true) :
    extract_id_from_url url = watch_branch (rust_trim url) ∧
    (∀ e, watch_branch (rust_trim url) = Except.error e →
      e = ExtractError.urlParseError) ∧
    (∀ vid, watch_branch (rust_trim url) = Except.ok vid →
      validate_video_id vid = Except.ok ()) := by
  refine ⟨by simp [extract_id_from_url, h], ?_, ?_⟩
  · intro e he
    unfold watch_branch at he
    split at he
    · split at he
      · exact absurd he (by simp)
      · exact (Except.error.inj he).symm
    · exact (Except.error.inj he).symm
  · intro vid hid
    unfold watch_branch at hid
    split at hid
    · rename_i cand hc
      split at hid
      · rename_i hok
        have hcv : cand = vid := Except.ok.inj hid
        subst hcv
        cases hv : validate_video_id cand with
        | ok u => cases u; rfl
        | error e2 => rw [hv] at hok; simp [Except.isOk, Except.toBool] at hok
      · exact absurd hid (by simp)
    · exact absurd hid (by simp)

/-- C6 witness: an input containing both marker substrings, where the watch
extraction yields an invalid identifier: the result is the URL-parse error,
with no fallback to the short-link pattern even though it would succeed. -/
theorem c6_watch_branch_fail_fast_witness :
    rust_contains (rust_trim "youtube.com/watch?v=x&youtu.be/dQw4w9WgXcQ")
      "youtube.com/watch" = true ∧
    rust_contains (rust_trim "youtube.com/watch?v=x&youtu.be/dQw4w9WgXcQ")
      "youtu.be/" = true ∧
    extract_id_from_url "youtube.com/watch?v=x&youtu.be/dQw4w9WgXcQ" =
      Except.error ExtractError.urlParseError :=
  ⟨by decide, by decide,
    ((c6_watch_branch_fail_fast "youtube.com/watch?v=x&youtu.be/dQw4w9WgXcQ"
      (by decide)).1).trans (by decide)⟩

/-- C7: strings that do not parse as u64 pass through unchanged; parsed
values below 1000 render as their plain decimal string; parsed values of at
least 1000 are scaled by the largest applicable threshold (1e9 with suffix
B, then 1e6 with M, then 1e3 with K), formatted to one decimal via double
arithmetic with a trailing ".0" stripped before the suffix; and the four
specification examples hold. -/
theorem c7_format_views (s : String) :
    (parse_u64 s = none → format_views s = s) ∧
    (∀ n, parse_u64 s = some n → n < 1000 → format_views s = Nat.repr n) ∧
    (∀ n, parse_u64 s = some n → 1000 ≤ n →
      format_views s =
        trim_end_dot0 (format_f64_one_decimal (u64_as_f64 n)
          (if 1000000000 ≤ n then 1000000000
           else if 1000000 ≤ n then 1000000 else 1000)) ++
        (if 1000000000 ≤ n then "B" else if 1000000 ≤ n then "M" else "K")) ∧
    format_views "950" = "950" ∧ format_views "1500" = "1.5K" ∧
    format_views "2000000" = "2M" ∧ format_views "abc" = "abc" := by
  refine ⟨?_, ?_, ?_, by decide, by decide, by decide, by decide⟩
  · intro h
    simp [format_views, h]
  · intro n h hn
    have hb : ¬ 1000000000 ≤ n := by omega
    have hm : ¬ 1000000 ≤ n := by omega
    have hk : ¬ 1000 ≤ n := by omega
    simp [format_views, h, hb, hm, hk]
  · intro n h hn
    by_cases hb : 1000000000 ≤ n
    · simp [format_views, h, hb]
    · by_cases hm : 1000000 ≤ n
      · simp [format_views, h, hb, hm]
      · simp [format_views, h, hb, hm, hn]

/-- C7 witness. -/
theorem c7_format_views_witness : format_views "2500000" = "2.5M" :=
  ((c7_format_views "2500000").2.2.1 2500000 (by decide) (by decide)).trans (by decide)

/-- C8 counterexample: the doubles are exact on whole numbers up to 2 ^ 64,
yet at 2 ^ 64 seconds the u64 cast saturates at 2 ^ 64 - 1, so the rendered
string is not the one obtained by truncating and decomposing, refuting the
claim for every non-negative finite input. -/
theorem c8_counterexample :
    (0 : ℚ) ≤ mkRat (2 ^ 64) 1 ∧
    seconds_to_timestamp (FVal.fin (mkRat (2 ^ 64) 1)) ≠
      formatTimestampSpec (mkRat (2 ^ 64) 1) :=
  ⟨by decide, by decide⟩

/-- C8 amended: for every non-negative finite input whose truncation fits in
a u64, the formatter truncates to whole seconds (no rounding), decomposes
into hours, minutes and seconds with minutes and seconds each below 60, and
renders zero-padded HH:MM:SS when hours are positive and zero-padded MM:SS
otherwise; inputs at or above 2 ^ 64 seconds saturate at the maximal u64. -/
theorem c8_timestamp (q : ℚ) (h0 : 0 ≤ q) (h1 : ⌊q⌋.toNat < 2 ^ 64) :
    seconds_to_timestamp (FVal.fin q) = formatTimestampSpec q ∧
    ⌊q⌋.toNat % 3600 / 60 < 60 ∧ ⌊q⌋.toNat % 60 < 60 := by
  have hmin : (18446744073709551615 : ℕ) ⊓ ⌊q⌋.toNat = ⌊q⌋.toNat := by omega
  refine ⟨?_, by omega, by omega⟩
  simp [seconds_to_timestamp, formatTimestampSpec, f64_to_u64, hmin]

/-- C8 witness: the two specification examples. -/
theorem c8_timestamp_witness :
    (0 : ℚ) ≤ mkRat 659 10 ∧ ⌊mkRat 659 10⌋.toNat < 2 ^ 64 ∧
    seconds_to_timestamp (FVal.fin (mkRat 659 10)) = "01:05" ∧
    seconds_to_timestamp (FVal.fin (mkRat 3661 1)) = "01:01:01" :=
  ⟨by decide, by decide,
    ((c8_timestamp (mkRat 659 10) (by decide) (by decide)).1).trans (by decide),
    by decide⟩

/-- C9: a negative finite input, NaN, and negative infinity all render as
"00:00": the float-to-integer cast saturates at zero, and the function is
total on the modelled float domain. -/
theorem c9_negative_and_nan (q : ℚ) (h : q < 0) :
    seconds_to_timestamp (FVal.fin q) = "00:00" ∧
    seconds_to_timestamp FVal.nan = "00:00" ∧
    seconds_to_timestamp FVal.negInf = "00:00" := by
  refine ⟨?_, by decide, by decide⟩
  have hf : ⌊q⌋.toNat = 0 := by
    have hneg : ⌊q⌋ < 0 := by
      rw [Int.floor_lt]
      exact_mod_cast h
    omega
  simp [seconds_to_timestamp, f64_to_u64, hf, pad2]
  rfl

/-- C9 witness. -/
theorem c9_negative_and_nan_witness :
    mkRat (-5) 2 < 0 ∧
    seconds_to_timestamp (FVal.fin (mkRat (-5) 2)) = "00:00" :=
  ⟨by decide, (c9_negative_and_nan (mkRat (-5) 2) (by decide)).1⟩

/-- C10: every string not accepted by unsigned 64-bit decimal parsing is
returned unchanged, including a negative value and a value exceeding
2 ^ 64 - 1; every accepted string is canonicalized through the parsed
integer, so two spellings of the same value format identically, and a
leading-zero spelling formats as the plain value. -/
theorem c10_passthrough_and_canonicalization :
    (∀ s, parse_u64 s = none → format_views s = s) ∧
    (∀ s t n, parse_u64 s = some n → parse_u64 t = some n →
      format_views s = format_views t) ∧
    format_views "-5" = "-5" ∧
    format_views "18446744073709551616" = "18446744073709551616" ∧
    format_views "0950" = "950" := by
  refine ⟨?_, ?_, by decide, by decide, by decide⟩
  · intro s h
    simp [format_views, h]
  · intro s t n hs ht
    simp [format_views, hs, ht]

/-- C10 witness. -/
theorem c10_passthrough_and_canonicalization_witness :
    format_views "0950" = format_views "950" :=
  c10_passthrough_and_canonicalization.2.1 "0950" "950" 950 (by decide) (by decide)
